import Mathlib

/-!
Verification of `mirror_code.py`, a one-off directory-mirroring utility.

The script walks a hard-coded source directory with `os.walk`, prunes a set
of skip-named directories before descending, mirrors the directory structure
under a hard-coded destination directory (itself nested inside the source
directory), and copies each non-excluded file's UTF-8 text content to a
destination file whose extension is replaced by `.txt`.  Per-file read/write
errors are caught and reported with `print` (which writes to `sys.stdout`),
and the walk continues.

The embedding below models:
  * the hard-coded configuration (paths and the three skip sets),
  * CPython's `os.path.splitext` on a bare filename (no separators),
  * the source tree as a finite tree of named files and subdirectories,
    where reading a file either yields its decoded text or raises an
    error message,
  * a run as the list of effects in traversal order: directory creations,
    destination-file writes, and diagnostic lines with their output channel,
  * the destination state as a journal of directory creations and writes,
    queried with first-match lookup over the most-recent-first journal.
-/

namespace MirrorCode

/-- `source_dir` from the script (hard-coded absolute path). -/
def source_dir : String :=
  "/Users/suleimanodetoro/Desktop/BecomingHirable/ReactNativeProjects/chata-bubble"

/-- `destination_dir` from the script; note it is nested inside `source_dir`. -/
def destination_dir : String :=
  "/Users/suleimanodetoro/Desktop/BecomingHirable/ReactNativeProjects/chata-bubble/googleone"

/-- The `skip_dirs` set: folders that are pruned from the walk. -/
def skip_dirs : List String :=
  ["android", "ios", "node_modules", ".git", ".expo", ".vscode", ".idea",
   "coverage", "dist", "build", "__tests__", "Pods", "xcshareddata"]

/-- The `skip_extensions` set: extension strings compared against
`os.path.splitext(file)[1]`. -/
def skip_extensions : List String :=
  [".map", ".d.ts", ".ttf", ".png", ".jpg", ".jpeg", ".webp"]

/-- The `skip_files` set: exact filenames that are skipped. -/
def skip_files : List String :=
  [".DS_Store", "LICENSE", "README.md", "package-lock.json", "project_tree.txt"]

/-- Index of the last `'.'` in a character list, if any
(the `p.rfind(extsep)` step of CPython's `splitext`). -/
def lastDotIndex : List Char → Option Nat
  | [] => none
  | c :: cs =>
    match lastDotIndex cs with
    | some i => some (i + 1)
    | none => if c = '.' then some 0 else none

/-- CPython `os.path.splitext` restricted to a bare filename (no path
separators): split at the last dot, unless every character before that dot
is itself a dot (a leading-dot name such as `.gitignore` has no extension). -/
def splitext (s : String) : String × String :=
  match lastDotIndex s.data with
  | none => (s, "")
  | some i =>
    if (s.data.take i).all (fun c => c = '.') then (s, "")
    else (String.mk (s.data.take i), String.mk (s.data.drop i))

/-- `os.path.splitext(file)[1]`, the extension used by the skip filter. -/
def pyExt (f : String) : String := (splitext f).2

/-- `os.path.splitext(file)[0]`, the base used to build the destination name. -/
def pyBase (f : String) : String := (splitext f).1

/-- The test `file in skip_files or file_ext in skip_extensions`. -/
def excludedFile (f : String) : Bool :=
  decide (f ∈ skip_files) || decide (pyExt f ∈ skip_extensions)

/-- The destination filename `f"{os.path.splitext(file)[0]}.txt"`. -/
def destName (f : String) : String := pyBase f ++ ".txt"

/-- Outcome of the guarded per-file I/O, `open(src).read()` followed by
`open(dest, 'w')` / `f_out.write(content)`:
  * `ok content` — the read yields `content` and the write succeeds;
  * `err msg` — the read raises `msg` (decode failure, permission error,
    I/O error) before the destination is touched;
  * `writeErr written msg` — the read succeeds but writing raises `msg`:
    with `written = none` the destination `open` itself raised and the
    destination is untouched; with `written = some w` the destination was
    opened (truncating it) and `w` is what reached it before the failure. -/
inductive ReadResult where
  | ok (content : String)
  | err (msg : String)
  | writeErr (written : Option String) (msg : String)
deriving DecidableEq, Repr

/-- A directory entry: filename together with what reading the file yields. -/
abbrev Entry := String × ReadResult

mutual
/-- A source directory: its files and its named subdirectories, in the
order `os.walk` lists them. -/
inductive FSTree where
  | node (files : List Entry) (dirs : DirList)
/-- The named subdirectories of a directory. -/
inductive DirList where
  | nil
  | cons (name : String) (tree : FSTree) (rest : DirList)
end

/-- The output channel of a printed line.  `print` without a `file=`
argument writes to `sys.stdout`. -/
inductive Channel where
  | stdout
  | stderr
deriving DecidableEq, Repr

/-- One observable effect of the run, in traversal order. -/
inductive Event where
  | mkdir (relPath : List String)
  | fileWrite (relPath : List String) (name : String) (content : String)
  | diag (chan : Channel) (line : String)
deriving DecidableEq, Repr

/-- `os.path.join(a, b)` for a non-absolute `b` and an `a` not ending in a
separator. -/
def pathJoin (a b : String) : String := a ++ "/" ++ b

/-- `os.path.relpath(root, source_dir)` rendered as a string: `"."` for the
top of the walk, else the slash-joined relative components. -/
def relpathStr (rel : List String) : String :=
  match rel with
  | [] => "."
  | _ => String.intercalate "/" rel

/-- The absolute path of the visited source directory (`root` in the loop). -/
def rootPath (rel : List String) : String :=
  match rel with
  | [] => source_dir
  | _ => pathJoin source_dir (String.intercalate "/" rel)

/-- `dest_path = os.path.join(destination_dir, relative_path)`. -/
def destPath (rel : List String) : String :=
  pathJoin destination_dir (relpathStr rel)

/-- `src_file_path = os.path.join(root, file)`. -/
def srcFilePath (rel : List String) (f : String) : String :=
  pathJoin (rootPath rel) f

/-- `dest_file_path = os.path.join(dest_path, dest_file_name)`. -/
def destFilePath (rel : List String) (n : String) : String :=
  pathJoin (destPath rel) n

/-- The diagnostic line `f"⚠️ Skipping \x7bsrc_file_path\x7d: \x7be\x7d"`. -/
def diagLine (p e : String) : String := "⚠️ Skipping " ++ p ++ ": " ++ e

/-- Effects of the per-file loop body for one directory entry: nothing when
the skip filter matches; a destination write when read and write succeed;
a diagnostic line on stdout when the read raises or the destination open
raises; and, for a failure in mid-write, the truncation write that reached
the destination followed by the diagnostic line. -/
def fileEvent (rel : List String) (ent : Entry) : List Event :=
  if excludedFile ent.1 then []
  else
    match ent.2 with
    | .ok c => [Event.fileWrite rel (destName ent.1) c]
    | .err e => [Event.diag Channel.stdout (diagLine (srcFilePath rel ent.1) e)]
    | .writeErr none e =>
      [Event.diag Channel.stdout (diagLine (srcFilePath rel ent.1) e)]
    | .writeErr (some w) e =>
      [Event.fileWrite rel (destName ent.1) w,
       Event.diag Channel.stdout (diagLine (srcFilePath rel ent.1) e)]

/-- Effects of the `for file in files` loop. -/
def fileEvents (rel : List String) : List Entry → List Event
  | [] => []
  | ent :: rest => fileEvent rel ent ++ fileEvents rel rest

mutual
/-- Effects of the walk from one visited directory: `os.makedirs` for the
mirrored directory, then the per-file loop, then the pruned recursion into
subdirectories (`dirs[:] = [d for d in dirs if d not in skip_dirs]`). -/
def run (rel : List String) : FSTree → List Event
  | .node files dirs =>
    Event.mkdir rel :: (fileEvents rel files ++ runDirs rel dirs)
/-- Recursion of `os.walk` into the kept subdirectories, in order. -/
def runDirs (rel : List String) : DirList → List Event
  | .nil => []
  | .cons d sub rest =>
    (if d ∈ skip_dirs then [] else run (rel ++ [d]) sub) ++ runDirs rel rest
end

/-- A destination-tree key: relative directory path plus filename. -/
abbrev DestKey := List String × String

/-- The destination tree as built by the run: directories created so far and
a most-recent-first journal of file writes. -/
structure DestState where
  dirsMade : List (List String)
  filesJournal : List (DestKey × String)

/-- The content of the destination file at `k`, if one has been written
(the most recent write wins). -/
def DestState.lookup (s : DestState) (k : DestKey) : Option String :=
  (s.filesJournal.find? (fun p => decide (p.1 = k))).map (fun p => p.2)

/-- Apply one effect to the destination state: `os.makedirs` records the
directory, a write prepends to the journal, a diagnostic changes nothing. -/
def applyEvent (s : DestState) : Event → DestState
  | .mkdir rel => ⟨rel :: s.dirsMade, s.filesJournal⟩
  | .fileWrite rel n c => ⟨s.dirsMade, ((rel, n), c) :: s.filesJournal⟩
  | .diag _ _ => s

/-- Apply a list of effects in order. -/
def applyEvents (s : DestState) (es : List Event) : DestState :=
  es.foldl applyEvent s

/-- An empty destination tree. -/
def emptyDest : DestState := ⟨[], []⟩

/-- One run of the script over source tree `t`, starting from destination
state `s`. -/
def runState (t : FSTree) (s : DestState) : DestState :=
  applyEvents s (run [] t)

/-- One run of the script over source tree `t` onto an empty destination. -/
def mirror (t : FSTree) : DestState := runState t emptyDest

/-- The content an event writes at destination key `k`, if any. -/
def writeOf (ev : Event) (k : DestKey) : Option String :=
  match ev with
  | .fileWrite rel n c => if (rel, n) = k then some c else none
  | _ => none

/-- The content of the chronologically last write at key `k` in an event
list, if any (later events take precedence). -/
def lastValW : List Event → DestKey → Option String
  | [], _ => none
  | ev :: rest, k =>
    match lastValW rest k with
    | some c => some c
    | none => writeOf ev k

/-- The relative paths of the `mkdir` events in a list. -/
def mkdirsOf : List Event → List (List String)
  | [] => []
  | .mkdir rel :: rest => rel :: mkdirsOf rest
  | _ :: rest => mkdirsOf rest

theorem lookup_applyEvent (s : DestState) (ev : Event) (k : DestKey) :
    (applyEvent s ev).lookup k =
      match writeOf ev k with
      | some c => some c
      | none => s.lookup k := by
  cases ev with
  | mkdir rel => simp [applyEvent, writeOf, DestState.lookup]
  | fileWrite rel n c =>
    by_cases h : (rel, n) = k
    · simp [applyEvent, writeOf, DestState.lookup, List.find?, h]
    · simp [applyEvent, writeOf, DestState.lookup, List.find?, h]
  | diag ch l => simp [applyEvent, writeOf]

theorem lookup_applyEvents (es : List Event) (s : DestState) (k : DestKey) :
    (applyEvents s es).lookup k =
      match lastValW es k with
      | some c => some c
      | none => s.lookup k := by
  induction es generalizing s with
  | nil => rfl
  | cons ev rest ih =>
    show (applyEvents (applyEvent s ev) rest).lookup k = _
    rw [ih, lookup_applyEvent]
    cases hr : lastValW rest k <;> cases hw : writeOf ev k <;>
      simp [lastValW, hr, hw]

theorem dirsMade_applyEvents (es : List Event) (s : DestState)
    (d : List String) :
    d ∈ (applyEvents s es).dirsMade ↔ (d ∈ mkdirsOf es ∨ d ∈ s.dirsMade) := by
  induction es generalizing s with
  | nil => simp [applyEvents, mkdirsOf]
  | cons ev rest ih =>
    show d ∈ (applyEvents (applyEvent s ev) rest).dirsMade ↔ _
    rw [ih]
    cases ev <;> (simp [applyEvent, mkdirsOf]; try tauto)

mutual
/-- All files the walk visits, with their relative directory paths, in
traversal order (skip-named directories pruned exactly as in `run`). -/
def visitFiles (rel : List String) : FSTree → List (List String × Entry)
  | .node files dirs => files.map (fun ent => (rel, ent)) ++ visitDirs rel dirs
/-- Files visited under a list of subdirectories. -/
def visitDirs (rel : List String) : DirList → List (List String × Entry)
  | .nil => []
  | .cons d sub rest =>
    (if d ∈ skip_dirs then [] else visitFiles (rel ++ [d]) sub) ++
      visitDirs rel rest
end

/-- The destination content a visited file contributes at key `k`:
nothing when skip-filtered, unreadable, or failing before the destination
is opened; its content when the copy succeeds and maps to `k`; and the
prefix that reached the destination when the write fails in mid-write. -/
def entWrite (pe : List String × Entry) (k : DestKey) : Option String :=
  if excludedFile pe.2.1 then none
  else
    match pe.2.2 with
    | .ok c => if (pe.1, destName pe.2.1) = k then some c else none
    | .err _ => none
    | .writeErr none _ => none
    | .writeErr (some w) _ =>
      if (pe.1, destName pe.2.1) = k then some w else none

/-- The contribution of the chronologically last visited file writing at
key `k` (later files take precedence). -/
def entLastVal : List (List String × Entry) → DestKey → Option String
  | [], _ => none
  | pe :: rest, k =>
    match entLastVal rest k with
    | some c => some c
    | none => entWrite pe k

theorem lastValW_append (A B : List Event) (k : DestKey) :
    lastValW (A ++ B) k =
      match lastValW B k with
      | some c => some c
      | none => lastValW A k := by
  induction A with
  | nil => cases hb : lastValW B k <;> simp [lastValW, hb]
  | cons ev rest ih =>
    show lastValW (ev :: (rest ++ B)) k = _
    rw [lastValW, ih]
    cases hb : lastValW B k <;> cases hr : lastValW rest k <;>
      simp [lastValW, hb, hr]

theorem entLastVal_append (A B : List (List String × Entry)) (k : DestKey) :
    entLastVal (A ++ B) k =
      match entLastVal B k with
      | some c => some c
      | none => entLastVal A k := by
  induction A with
  | nil => cases hb : entLastVal B k <;> simp [entLastVal, hb]
  | cons pe rest ih =>
    show entLastVal (pe :: (rest ++ B)) k = _
    rw [entLastVal, ih]
    cases hb : entLastVal B k <;> cases hr : entLastVal rest k <;>
      simp [entLastVal, hb, hr]

theorem lastValW_mkdir_cons (rel : List String) (es : List Event)
    (k : DestKey) :
    lastValW (Event.mkdir rel :: es) k = lastValW es k := by
  cases h : lastValW es k <;> simp [lastValW, writeOf, h]

theorem lastValW_fileEvent (rel : List String) (ent : Entry) (k : DestKey) :
    lastValW (fileEvent rel ent) k = entWrite (rel, ent) k := by
  obtain ⟨f, r⟩ := ent
  cases hx : excludedFile f <;>
    rcases r with c | e | ⟨_ | w, e⟩ <;>
    simp [fileEvent, entWrite, lastValW, writeOf, hx]

theorem lastValW_fileEvents (rel : List String) (fs : List Entry)
    (k : DestKey) :
    lastValW (fileEvents rel fs) k =
      entLastVal (fs.map (fun ent => (rel, ent))) k := by
  induction fs with
  | nil => rfl
  | cons ent rest ih =>
    rw [fileEvents, lastValW_append, ih, List.map_cons, entLastVal]
    cases h : entLastVal (rest.map (fun ent => (rel, ent))) k <;>
      simp [h, lastValW_fileEvent]

mutual
theorem lastValW_run (rel : List String) (k : DestKey) :
    ∀ t : FSTree, lastValW (run rel t) k = entLastVal (visitFiles rel t) k
  | .node files dirs => by
    rw [run, visitFiles, lastValW_mkdir_cons, lastValW_append,
      lastValW_fileEvents, entLastVal_append, lastValW_runDirs rel k dirs]
theorem lastValW_runDirs (rel : List String) (k : DestKey) :
    ∀ ds : DirList,
      lastValW (runDirs rel ds) k = entLastVal (visitDirs rel ds) k
  | .nil => by rfl
  | .cons d sub rest => by
    rw [runDirs, visitDirs, lastValW_append, entLastVal_append,
      lastValW_runDirs rel k rest]
    by_cases hd : d ∈ skip_dirs
    · cases h : entLastVal (visitDirs rel rest) k <;>
        simp [h, hd, lastValW, entLastVal]
    · cases h : entLastVal (visitDirs rel rest) k <;>
        simp [h, hd, lastValW_run (rel ++ [d]) k sub]
end

theorem lookup_mirror (t : FSTree) (k : DestKey) :
    (mirror t).lookup k = entLastVal (visitFiles [] t) k := by
  rw [mirror, runState, lookup_applyEvents, lastValW_run [] k t]
  cases h : entLastVal (visitFiles [] t) k <;>
    simp [h, emptyDest, DestState.lookup]

/-- A source directory holding both `a.js` and `a.json`, which collide on
the destination name `a.txt`. -/
def collisionTree : FSTree :=
  FSTree.node [("a.js", ReadResult.ok "console"), ("a.json", ReadResult.ok "data")]
    DirList.nil

/-- C1: as stated the claim is false: `a.js` is reachable and matches no
skip rule, yet after the run the destination file `a.txt` does not hold
the content of `a.js` — the colliding later file `a.json` overwrote it. -/
theorem c1_counterexample :
    excludedFile "a.js" = false ∧
    ([], ("a.js", ReadResult.ok "console")) ∈ visitFiles [] collisionTree ∧
    (mirror collisionTree).lookup ([], destName "a.js") ≠ some "console" :=
  ⟨by decide, by decide, by decide⟩

/-- C1 (amended): for every reachable file that matches no skip rule,
reads successfully, and is the last visited file writing to its destination
key, the destination tree contains the file at the mirrored relative path
under the name `base ++ ".txt"` with exactly the source file's decoded
content. -/
theorem c1_mirrored_content (t : FSTree) (p : List String) (f c : String)
    (pre post : List (List String × Entry))
    (hvisit : visitFiles [] t = pre ++ (p, (f, ReadResult.ok c)) :: post)
    (hkeep : excludedFile f = false)
    (hlast : entLastVal post (p, destName f) = none) :
    (mirror t).lookup (p, destName f) = some c := by
  rw [lookup_mirror, hvisit, entLastVal_append, entLastVal, hlast]
  simp [entWrite, hkeep]

/-- A one-file source directory used to witness C1. -/
def wTreeC1 : FSTree := FSTree.node [("app.js", ReadResult.ok "hello")] DirList.nil

/-- Witness for C1 at a concrete one-file tree. -/
theorem c1_mirrored_content_witness :
    (mirror wTreeC1).lookup ([], destName "app.js") = some "hello" :=
  c1_mirrored_content wTreeC1 [] "app.js" "hello" [] [] rfl (by decide) rfl

/-- C5: a second run over the unchanged source tree leaves the destination
exactly as one run does: every destination file has the same content, and
the same directories exist. -/
theorem c5_idempotent (t : FSTree) (s : DestState) :
    (∀ k, (runState t (runState t s)).lookup k = (runState t s).lookup k) ∧
    (∀ d, d ∈ (runState t (runState t s)).dirsMade ↔
      d ∈ (runState t s).dirsMade) := by
  constructor
  · intro k
    simp only [runState, lookup_applyEvents]
    cases h : lastValW (run [] t) k <;> simp [h]
  · intro d
    simp only [runState, dirsMade_applyEvents]
    tauto

/-- A one-file source directory used to witness C5. -/
def wTreeC5 : FSTree := FSTree.node [("a.ts", ReadResult.ok "w")] DirList.nil

/-- Witness for C5 at a concrete tree, destination state and key. -/
theorem c5_idempotent_witness :
    (runState wTreeC5 (runState wTreeC5 emptyDest)).lookup ([], "a.txt") =
      (runState wTreeC5 emptyDest).lookup ([], "a.txt") :=
  (c5_idempotent wTreeC5 emptyDest).1 ([], "a.txt")

/-- A source directory holding both `config.json` and `config.js`. -/
def configTree (c1 c2 : String) : FSTree :=
  FSTree.node [("config.json", ReadResult.ok c1), ("config.js", ReadResult.ok c2)]
    DirList.nil

/-- C6: with `config.json` and `config.js` in one source directory, the run
produces exactly one destination file, `config.txt`, holding the content of
the file copied last in traversal order (`config.js` here). -/
theorem c6_collision (c1 c2 : String) :
    (mirror (configTree c1 c2)).lookup ([], "config.txt") = some c2 ∧
    ∀ k, (mirror (configTree c1 c2)).lookup k ≠ none →
      k = ([], "config.txt") := by
  constructor
  · rfl
  · intro k hk
    by_contra hne
    apply hk
    have hj : (mirror (configTree c1 c2)).filesJournal =
        [((([] : List String), "config.txt"), c2),
         ((([] : List String), "config.txt"), c1)] := rfl
    have h1 : ¬ ((([] : List String), "config.txt") = k) := fun h => hne h.symm
    have e1 : destName "config.js" = "config.txt" := rfl
    have e2 : destName "config.json" = "config.txt" := rfl
    simp [DestState.lookup, hj, List.find?, e1, e2, h1]

/-- Witness for C6 at concrete contents. -/
theorem c6_collision_witness :
    (mirror (configTree "one" "two")).lookup ([], "config.txt") = some "two" ∧
    (([] : List String), "config.txt") = (([] : List String), "config.txt") :=
  ⟨(c6_collision "one" "two").1,
   (c6_collision "one" "two").2 ([], "config.txt") (by decide)⟩

theorem fileEvents_append (rel : List String) (xs ys : List Entry) :
    fileEvents rel (xs ++ ys) = fileEvents rel xs ++ fileEvents rel ys := by
  induction xs with
  | nil => rfl
  | cons ent rest ih => simp [fileEvents, ih]

theorem lastDotIndex_eq_none_iff (cs : List Char) :
    lastDotIndex cs = none ↔ cs.all (fun c => c != '.') = true := by
  induction cs with
  | nil => simp [lastDotIndex]
  | cons c rest ih =>
    rw [lastDotIndex]
    cases h : lastDotIndex rest with
    | some i =>
      have : rest.all (fun c => c != '.') ≠ true := fun hall =>
        by rw [ih.mpr hall] at h; cases h
      simp [this]
    | none =>
      have hall : rest.all (fun c => c != '.') = true := ih.mp h
      by_cases hc : c = '.' <;> simp [hc, hall]

theorem lastDotIndex_drop (cs : List Char) (i : Nat)
    (h : lastDotIndex cs = some i) :
    ∃ tail, cs.drop i = '.' :: tail ∧ tail.all (fun c => c != '.') = true := by
  induction cs generalizing i with
  | nil => simp [lastDotIndex] at h
  | cons c rest ih =>
    rw [lastDotIndex] at h
    cases hr : lastDotIndex rest with
    | some j =>
      rw [hr] at h
      simp at h
      subst h
      exact ih j hr
    | none =>
      rw [hr] at h
      by_cases hc : c = '.'
      · rw [if_pos hc] at h
        simp at h
        subst h
        exact ⟨rest, by simp [hc], (lastDotIndex_eq_none_iff rest).mp hr⟩
      · rw [if_neg hc] at h
        cases h

theorem pyExt_shape (g : String) :
    (pyExt g).data = [] ∨
      ∃ tail, (pyExt g).data = '.' :: tail ∧
        tail.all (fun c => c != '.') = true := by
  unfold pyExt splitext
  cases h : lastDotIndex g.data with
  | none => left; rfl
  | some i =>
    by_cases ha : (g.data.take i).all (fun c => c = '.') = true
    · left; simp [ha]
    · right
      obtain ⟨tail, hd, ht⟩ := lastDotIndex_drop g.data i h
      exact ⟨tail, by simp [ha, hd], ht⟩

/-- A source directory holding a TypeScript declaration file `foo.d.ts`. -/
def dtsTree : FSTree :=
  FSTree.node [("foo.d.ts", ReadResult.ok "decls")] DirList.nil

/-- C2: as stated the claim is false for multi-part suffixes: `foo.d.ts`
ends with the skip-extension entry `.d.ts`, yet the run still creates the
destination file `foo.d.txt`, because `os.path.splitext` yields only the
final one-dot suffix `.ts`, which is not in the set. -/
theorem c2_counterexample :
    ".d.ts" ∈ skip_extensions ∧
    "foo.d.ts" = "foo" ++ ".d.ts" ∧
    (mirror dtsTree).lookup ([], "foo.d.txt") = some "decls" :=
  ⟨by decide, by decide, by decide⟩

/-- C2 (amended): a file is excluded iff its exact name is in the
skip-filename set or its `splitext` extension (the final one-dot suffix) is
in the skip-extension set; either filter alone excludes the file, and
removing an excluded file from a directory changes nothing in the run.
The extension a file can present is always empty or a dot followed by
dot-free characters, so the multi-part entry `.d.ts` never matches. -/
theorem c2_excluded_not_copied :
    (∀ (rel : List String) (pre post : List Entry) (f : String)
       (d : ReadResult) (dirs : DirList),
       excludedFile f = true →
       run rel (FSTree.node (pre ++ (f, d) :: post) dirs) =
         run rel (FSTree.node (pre ++ post) dirs)) ∧
    (∀ g : String, pyExt g ≠ ".d.ts") := by
  constructor
  · intro rel pre post f d dirs hx
    rw [run, run, fileEvents_append, fileEvents_append, fileEvents]
    simp [fileEvent, hx]
  · intro g hg
    have hd : (pyExt g).data = ['.', 'd', '.', 't', 's'] := by rw [hg]
    rcases pyExt_shape g with h0 | ⟨tail, h1, h2⟩
    · rw [h0] at hd; cases hd
    · rw [h1] at hd
      have htail : tail = ['d', '.', 't', 's'] := by
        injection hd
      subst htail
      simp at h2

/-- Witness for C2 at a skip-extension file and at a skip-filename file. -/
theorem c2_excluded_not_copied_witness :
    run [] (FSTree.node [("x.png", ReadResult.ok "img")] DirList.nil) =
      run [] (FSTree.node [] DirList.nil) ∧
    excludedFile "x.png" = true ∧
    pyExt "foo.d.ts" ≠ ".d.ts" :=
  ⟨c2_excluded_not_copied.1 [] [] [] "x.png" (ReadResult.ok "img") DirList.nil
     (by decide),
   by decide,
   c2_excluded_not_copied.2 "foo.d.ts"⟩

/-- The destination-relative directory an event targets (`[]` for a
diagnostic, which targets no destination path). -/
def Event.relOf : Event → List String
  | .mkdir rel => rel
  | .fileWrite rel _ _ => rel
  | .diag _ _ => []

theorem relOf_fileEvents (rel : List String) (fs : List Entry) (ev : Event)
    (hev : ev ∈ fileEvents rel fs) :
    Event.relOf ev = rel ∨ Event.relOf ev = [] := by
  induction fs with
  | nil => simp [fileEvents] at hev
  | cons ent rest ih =>
    rw [fileEvents] at hev
    rcases List.mem_append.mp hev with h | h
    · unfold fileEvent at h
      by_cases hx : excludedFile ent.1 = true
      · rw [if_pos hx] at h; cases h
      · rw [if_neg hx] at h
        rcases hr : ent.2 with c | e | ⟨_ | w, e⟩
        · rw [hr] at h; left; simp at h; simp [h, Event.relOf]
        · rw [hr] at h; right; simp at h; simp [h, Event.relOf]
        · rw [hr] at h; right; simp at h; simp [h, Event.relOf]
        · rw [hr] at h
          simp at h
          rcases h with h | h
          · left; simp [h, Event.relOf]
          · right; simp [h, Event.relOf]
    · exact ih h

mutual
theorem run_relOf_clean (rel : List String)
    (hrel : ∀ c ∈ rel, c ∉ skip_dirs) :
    ∀ t : FSTree, ∀ ev ∈ run rel t, ∀ c ∈ Event.relOf ev, c ∉ skip_dirs
  | .node files dirs => fun ev hev => by
    rw [run] at hev
    rcases List.mem_cons.mp hev with h | h
    · intro c hc
      rw [h] at hc
      exact hrel c hc
    · rcases List.mem_append.mp h with h2 | h2
      · intro c hc
        rcases relOf_fileEvents rel files ev h2 with he | he
        · exact hrel c (he ▸ hc)
        · rw [he] at hc; cases hc
      · exact runDirs_relOf_clean rel hrel dirs ev h2
theorem runDirs_relOf_clean (rel : List String)
    (hrel : ∀ c ∈ rel, c ∉ skip_dirs) :
    ∀ ds : DirList, ∀ ev ∈ runDirs rel ds, ∀ c ∈ Event.relOf ev, c ∉ skip_dirs
  | .nil => fun ev hev => by simp [runDirs] at hev
  | .cons d sub rest => fun ev hev => by
    rw [runDirs] at hev
    rcases List.mem_append.mp hev with h | h
    · by_cases hd : d ∈ skip_dirs
      · rw [if_pos hd] at h; cases h
      · rw [if_neg hd] at h
        refine run_relOf_clean (rel ++ [d]) ?_ sub ev h
        intro c hc
        rcases List.mem_append.mp hc with h1 | h1
        · exact hrel c h1
        · rw [List.mem_singleton.mp h1]
          exact hd
    · exact runDirs_relOf_clean rel hrel rest ev h
end

/-- C3: an attached skip-named directory is pruned before descent — the
walk of the remaining siblings is unchanged and the pruned subtree
contributes nothing — and consequently no effect of a run targets a
destination path with a skip-named component (matching is by exact
directory name). -/
theorem c3_skip_dirs_pruned :
    (∀ (rel : List String) (d : String) (sub : FSTree) (rest : DirList),
       d ∈ skip_dirs →
       runDirs rel (DirList.cons d sub rest) = runDirs rel rest) ∧
    (∀ t : FSTree, ∀ ev ∈ run [] t, ∀ c ∈ Event.relOf ev, c ∉ skip_dirs) := by
  constructor
  · intro rel d sub rest hd
    rw [runDirs, if_pos hd]
    rfl
  · intro t ev hev c hc
    exact run_relOf_clean [] (by simp) t ev hev c hc

/-- A tree with a populated `node_modules` directory next to `src`. -/
def wTreeC3 : FSTree :=
  FSTree.node []
    (DirList.cons "node_modules"
      (FSTree.node [("dep.js", ReadResult.ok "m")] DirList.nil)
      (DirList.cons "src"
        (FSTree.node [("a.ts", ReadResult.ok "s")] DirList.nil)
        DirList.nil))

/-- Witness for C3: the pruning equation at `node_modules` and path
cleanliness of a concrete emitted event. -/
theorem c3_skip_dirs_pruned_witness :
    runDirs []
        (DirList.cons "node_modules"
          (FSTree.node [("dep.js", ReadResult.ok "m")] DirList.nil)
          DirList.nil) =
      runDirs [] DirList.nil ∧
    "src" ∉ skip_dirs :=
  ⟨c3_skip_dirs_pruned.1 [] "node_modules"
     (FSTree.node [("dep.js", ReadResult.ok "m")] DirList.nil) DirList.nil
     (by decide),
   c3_skip_dirs_pruned.2 wTreeC3 (Event.mkdir ["src"]) (by decide) "src"
     (by decide)⟩

/-- C4: any per-file failure of the guarded copy — the read raising, the
destination open raising, or the write raising in mid-write — is caught:
the run emits exactly the diagnostic for it (on stdout, with the source
path and error in the line, preceded only by the truncation that reached
the destination in the mid-write case) at that point and otherwise
proceeds exactly as it would without the failing file — later files of
the directory and all subdirectories included. -/
theorem c4_failure_isolated (rel : List String) (pre post : List Entry)
    (f e : String) (dirs : DirList)
    (hkeep : excludedFile f = false) :
    run rel (FSTree.node (pre ++ (f, ReadResult.err e) :: post) dirs) =
      Event.mkdir rel :: (fileEvents rel pre ++
        (Event.diag Channel.stdout (diagLine (srcFilePath rel f) e) ::
          (fileEvents rel post ++ runDirs rel dirs))) ∧
    run rel
        (FSTree.node (pre ++ (f, ReadResult.writeErr none e) :: post) dirs) =
      Event.mkdir rel :: (fileEvents rel pre ++
        (Event.diag Channel.stdout (diagLine (srcFilePath rel f) e) ::
          (fileEvents rel post ++ runDirs rel dirs))) ∧
    (∀ w : String,
      run rel
          (FSTree.node (pre ++ (f, ReadResult.writeErr (some w) e) :: post)
            dirs) =
        Event.mkdir rel :: (fileEvents rel pre ++
          (Event.fileWrite rel (destName f) w ::
            Event.diag Channel.stdout (diagLine (srcFilePath rel f) e) ::
              (fileEvents rel post ++ runDirs rel dirs)))) ∧
    run rel (FSTree.node (pre ++ post) dirs) =
      Event.mkdir rel :: (fileEvents rel pre ++
        (fileEvents rel post ++ runDirs rel dirs)) := by
  refine ⟨?_, ?_, fun w => ?_, ?_⟩
  · rw [run, fileEvents_append, fileEvents]
    simp [fileEvent, hkeep]
  · rw [run, fileEvents_append, fileEvents]
    simp [fileEvent, hkeep]
  · rw [run, fileEvents_append, fileEvents]
    simp [fileEvent, hkeep]
  · rw [run, fileEvents_append, List.append_assoc]

/-- Witness for C4 at a concrete directory with one failing and one
healthy file, exercising a read failure and a mid-write failure. -/
theorem c4_failure_isolated_witness :
    run [] (FSTree.node [("bad.js", ReadResult.err "boom"),
        ("ok.js", ReadResult.ok "y")] DirList.nil) =
      Event.mkdir [] :: (fileEvents [] [] ++
        (Event.diag Channel.stdout (diagLine (srcFilePath [] "bad.js") "boom") ::
          (fileEvents [] [("ok.js", ReadResult.ok "y")] ++
            runDirs [] DirList.nil))) ∧
    run [] (FSTree.node [("bad.js", ReadResult.writeErr (some "pa") "full"),
        ("ok.js", ReadResult.ok "y")] DirList.nil) =
      Event.mkdir [] :: (fileEvents [] [] ++
        (Event.fileWrite [] (destName "bad.js") "pa" ::
          Event.diag Channel.stdout (diagLine (srcFilePath [] "bad.js") "full") ::
            (fileEvents [] [("ok.js", ReadResult.ok "y")] ++
              runDirs [] DirList.nil))) :=
  ⟨(c4_failure_isolated [] [] [("ok.js", ReadResult.ok "y")] "bad.js" "boom"
      DirList.nil (by decide)).1,
   (c4_failure_isolated [] [] [("ok.js", ReadResult.ok "y")] "bad.js" "full"
      DirList.nil (by decide)).2.2.1 "pa"⟩

/-- Whether an event is a destination-file write. -/
def isWrite : Event → Bool
  | .fileWrite _ _ _ => true
  | _ => false

/-- C9: a file whose read raises contributes no destination write at all:
the write events of the run are exactly those of the run on the tree
without the failing file (the content is read in full before the
destination file is opened). -/
theorem c9_read_error_no_write (rel : List String) (pre post : List Entry)
    (f e : String) (dirs : DirList) :
    (run rel
        (FSTree.node (pre ++ (f, ReadResult.err e) :: post) dirs)).filter
        isWrite =
      (run rel (FSTree.node (pre ++ post) dirs)).filter isWrite := by
  rw [run, run, fileEvents_append, fileEvents_append, fileEvents]
  cases hx : excludedFile f <;>
    simp [fileEvent, hx, isWrite, List.filter_append]

/-- Witness for C9 at a concrete directory. -/
theorem c9_read_error_no_write_witness :
    (run [] (FSTree.node [("bad.js", ReadResult.err "boom"),
        ("ok.js", ReadResult.ok "y")] DirList.nil)).filter isWrite =
      (run [] (FSTree.node [("ok.js", ReadResult.ok "y")]
        DirList.nil)).filter isWrite :=
  c9_read_error_no_write [] [] [("ok.js", ReadResult.ok "y")] "bad.js" "boom"
    DirList.nil

/-- Whether an event is a diagnostic line. -/
def isDiag : Event → Bool
  | .diag _ _ => true
  | _ => false

/-- The diagnostic lines a visited file contributes: exactly one when it
passes the skip filter and its guarded copy fails (read or write), none
otherwise. -/
def entDiag (pe : List String × Entry) : List Event :=
  if excludedFile pe.2.1 then []
  else
    match pe.2.2 with
    | .ok _ => []
    | .err e =>
      [Event.diag Channel.stdout (diagLine (srcFilePath pe.1 pe.2.1) e)]
    | .writeErr _ e =>
      [Event.diag Channel.stdout (diagLine (srcFilePath pe.1 pe.2.1) e)]

/-- The diagnostic lines of a list of visited files, in order. -/
def diagsOf : List (List String × Entry) → List Event
  | [] => []
  | pe :: rest => entDiag pe ++ diagsOf rest

theorem diagsOf_append (A B : List (List String × Entry)) :
    diagsOf (A ++ B) = diagsOf A ++ diagsOf B := by
  induction A with
  | nil => rfl
  | cons pe rest ih => simp [diagsOf, ih]

theorem filter_isDiag_fileEvent (rel : List String) (ent : Entry) :
    (fileEvent rel ent).filter isDiag = entDiag (rel, ent) := by
  obtain ⟨f, r⟩ := ent
  cases hx : excludedFile f <;>
    rcases r with c | e | ⟨_ | w, e⟩ <;>
    simp [fileEvent, entDiag, isDiag, hx]

theorem filter_isDiag_fileEvents (rel : List String) (fs : List Entry) :
    (fileEvents rel fs).filter isDiag =
      diagsOf (fs.map (fun ent => (rel, ent))) := by
  induction fs with
  | nil => rfl
  | cons ent rest ih =>
    rw [fileEvents, List.filter_append, ih, List.map_cons, diagsOf,
      filter_isDiag_fileEvent]

mutual
theorem run_filter_isDiag (rel : List String) :
    ∀ t : FSTree, (run rel t).filter isDiag = diagsOf (visitFiles rel t)
  | .node files dirs => by
    rw [run, visitFiles, diagsOf_append]
    simp [List.filter_append, isDiag, filter_isDiag_fileEvents rel files,
      runDirs_filter_isDiag rel dirs]
theorem runDirs_filter_isDiag (rel : List String) :
    ∀ ds : DirList,
      (runDirs rel ds).filter isDiag = diagsOf (visitDirs rel ds)
  | .nil => rfl
  | .cons d sub rest => by
    rw [runDirs, visitDirs, List.filter_append, diagsOf_append,
      runDirs_filter_isDiag rel rest]
    by_cases hd : d ∈ skip_dirs
    · simp [hd, diagsOf]
    · simp [hd, run_filter_isDiag (rel ++ [d]) sub]
end

/-- A source directory with one undecodable file. -/
def failTree : FSTree :=
  FSTree.node [("bad.js", ReadResult.err "boom")] DirList.nil

/-- C7: as stated the claim is false on the output channel: the diagnostic
for a failed file is emitted by a bare `print`, which writes to standard
output, not to stderr. -/
theorem c7_counterexample :
    (run [] failTree).filter isDiag =
      [Event.diag Channel.stdout (diagLine (srcFilePath [] "bad.js") "boom")] ∧
    Channel.stdout ≠ Channel.stderr :=
  ⟨by decide, by decide⟩

/-- C7 (amended): the diagnostic stream of any run is exactly one line per
failed file, in traversal order: a kept file whose read or write raises
contributes exactly one diagnostic line — containing its source path and
the error description — on standard output (the default stream of
`print`), and skip-filtered or successfully copied files contribute
none. -/
theorem c7_diag_line :
    (∀ (rel : List String) (t : FSTree),
       (run rel t).filter isDiag = diagsOf (visitFiles rel t)) ∧
    (∀ (p : List String) (f e : String) (w : Option String),
       excludedFile f = false →
       entDiag (p, (f, ReadResult.err e)) =
         [Event.diag Channel.stdout (diagLine (srcFilePath p f) e)] ∧
       entDiag (p, (f, ReadResult.writeErr w e)) =
         [Event.diag Channel.stdout (diagLine (srcFilePath p f) e)]) ∧
    (∀ (p : List String) (f c : String),
       entDiag (p, (f, ReadResult.ok c)) = []) ∧
    (∀ p e : String,
       (∃ a b, diagLine p e = a ++ p ++ b) ∧
       (∃ a b, diagLine p e = a ++ e ++ b)) := by
  refine ⟨fun rel t => run_filter_isDiag rel t, ?_, ?_, ?_⟩
  · intro p f e w hkeep
    exact ⟨by simp [entDiag, hkeep], by simp [entDiag, hkeep]⟩
  · intro p f c
    cases hx : excludedFile f <;> simp [entDiag, hx]
  · intro p e
    exact ⟨⟨"⚠️ Skipping ", ": " ++ e, by rw [diagLine, String.append_assoc]⟩,
      ⟨"⚠️ Skipping " ++ p ++ ": ", "", by rw [diagLine, String.append_empty]⟩⟩

/-- A source directory with a read failure and a mid-write failure
alongside a healthy file, used to witness C7. -/
def wTreeC7 : FSTree :=
  FSTree.node [("bad.css", ReadResult.err "oops"),
    ("worse.css", ReadResult.writeErr (some "pr") "full"),
    ("ok.css", ReadResult.ok "y")] DirList.nil

/-- Witness for C7 at a concrete run holding two failing files and one
healthy file. -/
theorem c7_diag_line_witness :
    (run [] wTreeC7).filter isDiag = diagsOf (visitFiles [] wTreeC7) ∧
    entDiag ([], ("bad.css", ReadResult.err "oops")) =
      [Event.diag Channel.stdout
        (diagLine (srcFilePath [] "bad.css") "oops")] ∧
    entDiag ([], ("worse.css", ReadResult.writeErr (some "pr") "full")) =
      [Event.diag Channel.stdout
        (diagLine (srcFilePath [] "worse.css") "full")] ∧
    entDiag ([], ("ok.css", ReadResult.ok "y")) = [] ∧
    (∃ a b, diagLine (srcFilePath [] "bad.css") "oops" =
      a ++ srcFilePath [] "bad.css" ++ b) :=
  ⟨c7_diag_line.1 [] wTreeC7,
   (c7_diag_line.2.1 [] "bad.css" "oops" none (by decide)).1,
   (c7_diag_line.2.1 [] "worse.css" "full" (some "pr") (by decide)).2,
   c7_diag_line.2.2.1 [] "ok.css" "y",
   (c7_diag_line.2.2.2 (srcFilePath [] "bad.css") "oops").1⟩

/-- The absolute path an event creates or writes (none for a diagnostic). -/
def Event.touchedPath : Event → Option String
  | .mkdir rel => some (destPath rel)
  | .fileWrite rel n _ => some (destFilePath rel n)
  | .diag _ _ => none

/-- A one-file source tree for the C8 counterexample. -/
def nestedTree : FSTree := FSTree.node [("a.js", ReadResult.ok "x")] DirList.nil

/-- C8: as stated the claim is false: the hard-coded destination root lies
inside the source root, so the run does create files at paths under the
source root — here the write of `a.txt` lands at
`source_dir ++ "/googleone/./a.txt"`. -/
theorem c8_counterexample :
    Event.fileWrite [] "a.txt" "x" ∈ run [] nestedTree ∧
    Event.touchedPath (Event.fileWrite [] "a.txt" "x") =
      some (source_dir ++ "/" ++ "googleone/./a.txt") :=
  ⟨by decide, by decide⟩

/-- C8 (amended): every filesystem change of a run — each directory
creation and file write — is at a path under the destination root; since
the destination root is `source_dir ++ "/googleone"`, nested inside the
source root, these changes do fall under the source root, and nothing
outside the destination root is touched. -/
theorem c8_changes_under_destination :
    (∀ (t : FSTree) (ev : Event) (p : String), ev ∈ run [] t →
       Event.touchedPath ev = some p →
       ∃ s, p = destination_dir ++ "/" ++ s) ∧
    destination_dir = source_dir ++ "/googleone" := by
  constructor
  · intro t ev p _ hp
    cases ev with
    | mkdir rel =>
      refine ⟨relpathStr rel, ?_⟩
      have hpe := Option.some.inj hp
      rw [← hpe]
      rfl
    | fileWrite rel n c =>
      refine ⟨relpathStr rel ++ "/" ++ n, ?_⟩
      have hpe := Option.some.inj hp
      rw [← hpe]
      show destFilePath rel n = _
      rw [destFilePath, destPath, pathJoin, pathJoin]
      simp [String.append_assoc]
    | diag ch l => cases hp
  · decide

/-- Witness for C8: the single write of a one-file tree lands under the
destination root. -/
theorem c8_changes_under_destination_witness :
    (∃ s, destination_dir ++ "/" ++ "./a.txt" = destination_dir ++ "/" ++ s) ∧
    destination_dir = source_dir ++ "/googleone" :=
  ⟨c8_changes_under_destination.1 nestedTree
     (Event.fileWrite [] "a.txt" "x") (destination_dir ++ "/" ++ "./a.txt")
     (by decide) (by decide),
   c8_changes_under_destination.2⟩

/-- C10: a filename beginning with a dot and holding no other dot has an
empty `splitext` extension, so the skip-extension filter can never exclude
it (only an exact skip-filename match can), and its destination name is the
whole original name with `.txt` appended. -/
theorem c10_dotfile (f : String) (cs : List Char)
    (hdata : f.data = '.' :: cs)
    (hnodot : cs.all (fun c => c != '.') = true) :
    pyExt f = "" ∧ destName f = f ++ ".txt" ∧
    (excludedFile f = true ↔ f ∈ skip_files) := by
  have hnone : lastDotIndex cs = none := (lastDotIndex_eq_none_iff cs).mpr hnodot
  have hidx : lastDotIndex f.data = some 0 := by
    rw [hdata, lastDotIndex, hnone]
    simp
  have hsplit : splitext f = (f, "") := by
    rw [splitext, hidx]
    simp
  refine ⟨?_, ?_, ?_⟩
  · rw [pyExt, hsplit]
  · rw [destName, pyBase, hsplit]
  · rw [excludedFile, pyExt, hsplit]
    have h2 : decide (("" : String) ∈ skip_extensions) = false := by decide
    rw [h2]
    simp

/-- Witness for C10 at `.gitignore`. -/
theorem c10_dotfile_witness :
    pyExt ".gitignore" = "" ∧
    destName ".gitignore" = ".gitignore" ++ ".txt" ∧
    (excludedFile ".gitignore" = true ↔ ".gitignore" ∈ skip_files) :=
  c10_dotfile ".gitignore" "gitignore".data rfl (by decide)

end MirrorCode
